import Mathlib

/-!
Shallow embedding of the d8r downscaler (Go, `main.go`) and verification of
its schedule-evaluation and action-decision engine.

The embedding models:
* wall-clock times stripped of their date (`getRidOfDate`) as hour/minute pairs;
* the resource annotation map as an association list with Go map semantics
  (indexing a missing key yields the empty string);
* Go's `strconv.ParseInt(s, 10, 32)` and the `"HH:MM"` parse performed by
  `ConvertAnnotationTime` as explicit `Option`-returning parsers;
* the ambient wall clock (`time.Now()` observed in a given zone) as an explicit
  `Clock` environment threaded through the functions that read it;
* the logging collaborator as the `List String` component of each result: an
  empty list means nothing was logged during the call.
-/

namespace D8r

/-- Time-of-day value produced by the Go helper `getRidOfDate`: only the hour
and minute of a `time.Time` survive (the reconstructed value sits on the fixed
date 0000-Jan-01 with zero seconds, so comparisons reduce to hour/minute
lexicographic order). -/
structure HM where
  hour : Nat
  minute : Nat
deriving DecidableEq, Repr

/-- Go `time.Time.Before` on two date-stripped values: strict lexicographic
order on (hour, minute). -/
def HM.before (a b : HM) : Bool :=
  decide (a.hour < b.hour) || (decide (a.hour = b.hour) && decide (a.minute < b.minute))

/-- Go `time.Time.After`: `t.After(u)` holds exactly when `u.Before(t)`. -/
def HM.after (a b : HM) : Bool := HM.before b a

/-- Go `getRidOfDate` applied to an already date-stripped value: the format
string only keeps hour and minute, so on our `HM` representation it is the
identity (the parse of `0000-Jan-01 HH:MM +0000 UTC` never fails for a valid
hour/minute pair). -/
def getRidOfDate (t : HM) : HM := t

def annotationStartTime : String := "d8r/startTime"

def annotationStopTime : String := "d8r/stopTime"

def annotationTimeZone : String := "d8r/timeZone"

def annotationDownTimeReplicas : String := "d8r/downTimeReplicas"

def annotationOriginalReplicas : String := "d8r/originalReplicas"

def annotationDays : String := "d8r/days"

/-- Two-valued lookup in the annotation map: Go `v, ok := annotations[key]`. -/
def lookupAnn : List (String × String) → String → Option String
  | [], _ => none
  | (k, v) :: rest, key => if k == key then some v else lookupAnn rest key

/-- One-valued Go map indexing `annotations[key]`: a missing key yields the
zero value `""`. -/
def annGet (ann : List (String × String)) (key : String) : String :=
  (lookupAnn ann key).getD ""

/-- Go map assignment `annotations[key] = v`: replaces the binding when the key
is present, inserts it otherwise. -/
def annSet : List (String × String) → String → String → List (String × String)
  | [], key, v => [(key, v)]
  | (k, w) :: rest, key, v =>
    if k == key then (key, v) :: rest else (k, w) :: annSet rest key v

/-- Decimal value of a digit list, Go-style: fails on an empty list or any
non-digit character, otherwise folds the digits left to right. -/
def decDigits (l : List Char) : Option Nat :=
  if l.isEmpty then none
  else if l.all Char.isDigit then
    some (l.foldl (fun acc ch => acc * 10 + (ch.toNat - 48)) 0)
  else none

/-- Go `strconv.ParseInt(s, 10, 32)`: optional sign, decimal digits, result
within the int32 range; everything else (empty string included) is an error,
modelled as `none`.  The Go code always treats the range error like a syntax
error, so both collapse to `none` here. -/
def parseInt32 (s : String) : Option Int :=
  let core : Option Int :=
    match s.toList with
    | [] => none
    | c :: rest =>
      if c == '-' then (decDigits rest).map (fun n => -(Int.ofNat n))
      else if c == '+' then (decDigits rest).map (fun n => Int.ofNat n)
      else (decDigits (c :: rest)).map (fun n => Int.ofNat n)
  match core with
  | none => none
  | some v => if -2147483648 ≤ v ∧ v ≤ 2147483647 then some v else none

/-- Split a character list at every colon (the `:` of the `HH:MM` layout). -/
def splitOnColon : List Char → List (List Char)
  | [] => [[]]
  | c :: t =>
    let r := splitOnColon t
    if c == ':' then [] :: r
    else
      match r with
      | [] => [[c]]
      | h :: rt => (c :: h) :: rt

/-- Parse of the annotation value `"HH:MM"` as performed inside Go
`ConvertAnnotationTime`: the value is spliced into
`0000-Jan-01 HH:MM <offset> <abbrev>` and parsed with layout
`2006-Jan-02 15:04 -0700 MST`, which accepts a 1-2 digit hour below 24,
a colon, and an exactly-2-digit minute below 60, with nothing else. -/
def parseHHMM (s : String) : Option HM :=
  match splitOnColon s.toList with
  | [h, m] =>
    match decDigits h, decDigits m with
    | some hv, some mv =>
      if 1 ≤ h.length ∧ h.length ≤ 2 ∧ m.length = 2 ∧ hv ≤ 23 ∧ mv ≤ 59 then
        some ⟨hv, mv⟩
      else none
    | _, _ => none
  | _ => none

/-- First three characters of a weekday name, Go `Weekday().String()[:3]`
(weekday names are ASCII, so byte slicing and character slicing agree). -/
def weekdayAbbrev (wd : String) : String := String.mk (wd.toList.take 3)

/-- Go `strings.Contains` on character lists: does the needle occur as a
contiguous substring of the haystack?  `Contains(s, "")` is true. -/
def strContainsAux (needle : List Char) : List Char → Bool
  | [] => needle.isEmpty
  | c :: t => needle.isPrefixOf (c :: t) || strContainsAux needle t

/-- Go `strings.Contains s sub`. -/
def strContains (s sub : String) : Bool := strContainsAux sub.toList s.toList

/-- The ambient wall clock and timezone database read by the Go code through
`time.Now()`, `time.LoadLocation` and `Time.Zone`.  `zoneValid tz` models
`LoadLocation tz` succeeding; `nowIn tz` and `weekdayIn tz` are the hour/minute
and full weekday name of the current instant observed in that zone;
`zoneFormatOk tz` models the round-trip of the zone's current offset and
abbreviation through `fmt.Sprintf("%+.02d%.02d", off/3600, off%3600)` and
`time.Parse` inside `ConvertAnnotationTime` — it is false for zones whose
offset is not a whole number of hours (the `%.02d` of the leftover seconds
produces a string like `+051800` that the layout `-0700` rejects) or whose
abbreviation does not parse back. -/
structure Clock where
  zoneValid : String → Bool
  zoneFormatOk : String → Bool
  nowIn : String → HM
  weekdayIn : String → String

/-- Go `ConvertTimeNowToLocal`: load the zone, take the current time in it,
keep the first three characters of its weekday name, and strip the date. -/
def ConvertTimeNowToLocal (c : Clock) (tz : String) : Option (HM × String) :=
  if c.zoneValid tz then
    some (getRidOfDate (c.nowIn tz), weekdayAbbrev (c.weekdayIn tz))
  else none

/-- Go `ConvertAnnotationTime`: load the zone, format the current offset and
abbreviation, splice the annotation value in, and parse.  The result carries
exactly the hour and minute written in the annotation. -/
def ConvertAnnotationTime (c : Clock) (t : String) (timeZone : String) : Option HM :=
  if c.zoneValid timeZone then
    if c.zoneFormatOk timeZone then parseHHMM t else none
  else none

/-- The Go `Action` enumeration for deployments (`Upscale`, `Downscale`,
`NoAction`).  The cronjob constants `Suspend` and `Resume` are declared in a
second `const` block over the same integer type and share the numeric codes of
`Upscale` and `Downscale`; they are modelled below as abbreviations for the
same constructors, exactly as in the source. -/
inductive Action where
  | Upscale
  | Downscale
  | NoAction
deriving DecidableEq, Repr

/-- Go `Suspend Action = iota` (shares the code of `Upscale`). -/
def Suspend : Action := Action.Upscale

/-- Go `Resume` (shares the code of `Downscale`). -/
def Resume : Action := Action.Downscale

/-- Model of the message of the `strconv.ParseInt` error logged by the Go
code. -/
def parseIntErrMsg (s : String) : String :=
  "strconv.ParseInt: parsing \"" ++ s ++ "\": invalid syntax"

/-- Model of the message of a `time.LoadLocation` error. -/
def zoneErrMsg (tz : String) : String := "unknown time zone " ++ tz

/-- Model of the message of a `time.Parse` error on an annotation value. -/
def timeErrMsg (t : String) : String := "parsing time " ++ t ++ ": invalid format"

/-- Lines 149-171 of the Go source: the two window comparisons and the replica
guards of `getDeploymentActionNeeded`, once the current time and both window
endpoints are in hand.  The first `if` (downtime) may fall through to the
second `if` (uptime) exactly as in Go: a failed `ParseInt` returns
immediately, a passed idempotency guard falls through. -/
def deployWindowDecide (timeNow timeStartTime timeStopTime : HM)
    (downStr origStr : String) (replicas : Int) : Action × List String :=
  let upCheck : Action × List String :=
    if timeStartTime.before timeNow && !(timeStopTime.before timeNow) then
      match parseInt32 origStr with
      | none => (Action.NoAction, [parseIntErrMsg origStr])
      | some originalReplicas =>
        if replicas != originalReplicas then (Action.Upscale, [])
        else (Action.NoAction, [])
    else (Action.NoAction, [])
  if timeStopTime.before timeNow || timeStartTime.after timeNow then
    match parseInt32 downStr with
    | none => (Action.NoAction, [parseIntErrMsg downStr])
    | some downTimeReplicas =>
      if replicas != downTimeReplicas then (Action.Downscale, [])
      else upCheck
  else upCheck

/-- Go `getDeploymentActionNeeded`: read the timezone with plain map indexing,
convert "now", require both window annotations, convert them, and decide.
The second component collects the messages passed to `Log`. -/
def getDeploymentActionNeeded (c : Clock) (ann : List (String × String))
    (replicas : Int) : Action × List String :=
  let timeZone := annGet ann annotationTimeZone
  match ConvertTimeNowToLocal c timeZone with
  | none => (Action.NoAction, [zoneErrMsg timeZone])
  | some (timeNow, _) =>
    match lookupAnn ann annotationStartTime, lookupAnn ann annotationStopTime with
    | some startTime, some stopTime =>
      match ConvertAnnotationTime c startTime timeZone with
      | none => (Action.NoAction, [timeErrMsg startTime])
      | some startTimeConv =>
        match ConvertAnnotationTime c stopTime timeZone with
        | none => (Action.NoAction, [timeErrMsg stopTime])
        | some stopTimeConv =>
          deployWindowDecide timeNow (getRidOfDate startTimeConv)
            (getRidOfDate stopTimeConv)
            (annGet ann annotationDownTimeReplicas)
            (annGet ann annotationOriginalReplicas) replicas
    | _, _ => (Action.NoAction, [])

/-- Go `isDeploymentActionNeeded`: the opt-in gates (days, timezone, day
membership, downtime replica annotation) followed by the comparison of the
decided action against `NoAction`. -/
def isDeploymentActionNeeded (c : Clock) (ann : List (String × String))
    (replicas : Int) : Bool × List String :=
  match lookupAnn ann annotationDays with
  | none => (false, [])
  | some days =>
    match lookupAnn ann annotationTimeZone with
    | none => (false, [])
    | some timeZone =>
      match ConvertTimeNowToLocal c timeZone with
      | none => (false, [zoneErrMsg timeZone])
      | some (_, today) =>
        if !(strContains days today) then (false, [])
        else
          match lookupAnn ann annotationDownTimeReplicas with
          | none => (false, [])
          | some _ =>
            let res := getDeploymentActionNeeded c ann replicas
            (res.1 != Action.NoAction, res.2)

/-- Lines 308-321 of the Go source: the window comparisons and suspend guards
of `getCronjobActionNeeded` (no integer parsing in this path). -/
def cronWindowDecide (timeNow timeStartTime timeStopTime : HM)
    (suspend : Bool) : Action :=
  let upCheck : Action :=
    if timeStartTime.before timeNow && !(timeStopTime.before timeNow) then
      if suspend then Resume else Action.NoAction
    else Action.NoAction
  if timeStopTime.before timeNow || timeStartTime.after timeNow then
    if !suspend then Suspend else upCheck
  else upCheck

/-- Go `getCronjobActionNeeded`. -/
def getCronjobActionNeeded (c : Clock) (ann : List (String × String))
    (suspend : Bool) : Action × List String :=
  let timeZone := annGet ann annotationTimeZone
  match ConvertTimeNowToLocal c timeZone with
  | none => (Action.NoAction, [zoneErrMsg timeZone])
  | some (timeNow, _) =>
    match lookupAnn ann annotationStartTime, lookupAnn ann annotationStopTime with
    | some startTime, some stopTime =>
      match ConvertAnnotationTime c startTime timeZone with
      | none => (Action.NoAction, [timeErrMsg startTime])
      | some startTimeConv =>
        match ConvertAnnotationTime c stopTime timeZone with
        | none => (Action.NoAction, [timeErrMsg stopTime])
        | some stopTimeConv =>
          (cronWindowDecide timeNow (getRidOfDate startTimeConv)
            (getRidOfDate stopTimeConv) suspend, [])
    | _, _ => (Action.NoAction, [])

/-- Go `isCronjobActionNeeded`: same gates as the deployment variant except
that no downtime replica annotation is required. -/
def isCronjobActionNeeded (c : Clock) (ann : List (String × String))
    (suspend : Bool) : Bool × List String :=
  match lookupAnn ann annotationDays with
  | none => (false, [])
  | some days =>
    match lookupAnn ann annotationTimeZone with
    | none => (false, [])
    | some timeZone =>
      match ConvertTimeNowToLocal c timeZone with
      | none => (false, [zoneErrMsg timeZone])
      | some (_, today) =>
        if !(strContains days today) then (false, [])
        else
          let res := getCronjobActionNeeded c ann suspend
          (res.1 != Action.NoAction, res.2)

/-- Decimal digit characters of `n`, most significant first; fuel-based
recursion (the fuel argument strictly dominates `n`, see `natDecimalAux_spec`).
Together with `intSprintf` below this embeds Go `fmt.Sprintf("%d", x)`. -/
def natDecimalAux : Nat → Nat → List Char
  | 0, _ => []
  | fuel + 1, n =>
    if n < 10 then [Char.ofNat (48 + n)]
    else natDecimalAux fuel (n / 10) ++ [Char.ofNat (48 + n % 10)]

/-- Decimal digit characters of a natural number. -/
def natDecimal (n : Nat) : List Char := natDecimalAux (n + 1) n

/-- Go `fmt.Sprintf("%d", v)` for a (32-bit) integer value. -/
def intSprintf (v : Int) : String :=
  if v < 0 then String.mk (List.cons '-' (natDecimal v.natAbs))
  else String.mk (natDecimal v.natAbs)

/-- A deployment as far as the reconciliation loop touches it: namespace,
name, annotation map and the replica count `*deployment.Spec.Replicas`. -/
structure Deployment where
  ns : String
  name : String
  annotations : List (String × String)
  replicas : Int
deriving DecidableEq, Repr

/-- The body of the `checkDeployments` loop for one deployment (lines
218-260 of the Go source): check, decide, mutate, and update.  The result is
`some d'` when the loop calls `Update` with the mutated deployment `d'`, and
`none` when the deployment is not written at all (action not needed, decided
action `NoAction`, or a `ParseInt` failure hitting `continue`). -/
def processDeployment (c : Clock) (d : Deployment) : Option Deployment :=
  if (isDeploymentActionNeeded c d.annotations d.replicas).1 then
    match (getDeploymentActionNeeded c d.annotations d.replicas).1 with
    | Action.Downscale =>
      match parseInt32 (annGet d.annotations annotationDownTimeReplicas) with
      | none => none
      | some downTimeReplicas =>
        some { d with
          annotations :=
            annSet d.annotations annotationOriginalReplicas (intSprintf d.replicas),
          replicas := downTimeReplicas }
    | Action.Upscale =>
      match parseInt32 (annGet d.annotations annotationOriginalReplicas) with
      | none => none
      | some originalReplicas => some { d with replicas := originalReplicas }
    | Action.NoAction => none
  else none

/-! ### Basic facts about the time-of-day order -/

theorem HM.before_iff (a b : HM) :
    HM.before a b = true ↔ a.hour < b.hour ∨ (a.hour = b.hour ∧ a.minute < b.minute) := by
  simp [HM.before]

theorem HM.before_irrefl (a : HM) : HM.before a a = false := by
  rw [Bool.eq_false_iff]
  intro h
  rw [HM.before_iff] at h
  omega

theorem HM.before_asymm {a b : HM} (h : HM.before a b = true) : HM.before b a = false := by
  rw [Bool.eq_false_iff]
  intro h2
  rw [HM.before_iff] at h h2
  omega

theorem HM.before_trans {a b c : HM} (h1 : HM.before a b = true)
    (h2 : HM.before b c = true) : HM.before a c = true := by
  rw [HM.before_iff] at h1 h2 ⊢
  omega

/-- The downtime condition and the uptime condition of the Go comparisons are
mutually exclusive. -/
theorem inactive_not_active {now s e : HM}
    (h : (HM.before e now || HM.after s now) = true) :
    (HM.before s now && !(HM.before e now)) = false := by
  rcases Bool.or_eq_true_iff.mp h with h1 | h1
  · simp [h1]
  · have := HM.before_asymm (a := now) (b := s) h1
    simp [HM.after] at h1
    simp [this]

theorem active_not_inactive {now s e : HM}
    (h : (HM.before s now && !(HM.before e now)) = true) :
    (HM.before e now || HM.after s now) = false := by
  rcases Bool.and_eq_true_iff.mp h with ⟨h1, h2⟩
  have h3 : HM.before now s = false := HM.before_asymm h1
  simp only [Bool.not_eq_true'] at h2
  simp [HM.after, h2, h3]

/-! ### Annotation map lemmas -/

theorem annGet_of_lookup {ann : List (String × String)} {k v : String}
    (h : lookupAnn ann k = some v) : annGet ann k = v := by
  simp [annGet, h]

theorem annGet_of_lookup_none {ann : List (String × String)} {k : String}
    (h : lookupAnn ann k = none) : annGet ann k = "" := by
  simp [annGet, h]

theorem lookupAnn_annSet_self (l : List (String × String)) (k v : String) :
    lookupAnn (annSet l k v) k = some v := by
  induction l with
  | nil => simp [annSet, lookupAnn]
  | cons hd tl ih =>
    obtain ⟨k2, v2⟩ := hd
    by_cases h : k2 = k
    · simp [annSet, lookupAnn, h]
    · simp only [annSet, lookupAnn, beq_iff_eq, if_neg h, ih]

theorem lookupAnn_annSet_ne (l : List (String × String)) (k v k2 : String)
    (h : k2 ≠ k) : lookupAnn (annSet l k v) k2 = lookupAnn l k2 := by
  induction l with
  | nil => simp [annSet, lookupAnn, beq_iff_eq, Ne.symm h]
  | cons hd tl ih =>
    obtain ⟨k3, v3⟩ := hd
    by_cases h3 : k3 = k
    · subst h3
      simp [annSet, lookupAnn, beq_iff_eq, Ne.symm h]
    · by_cases h4 : k3 = k2
      · subst h4
        simp [annSet, lookupAnn, beq_iff_eq, h3]
      · simp [annSet, lookupAnn, beq_iff_eq, h3, Ne.symm h4, ih]

/-! ### Reduction of the deciders on the success path -/

theorem getDeployment_eq_window (c : Clock) (ann : List (String × String))
    (replicas : Int) (st sp : String) (s e : HM)
    (hzv : c.zoneValid (annGet ann annotationTimeZone) = true)
    (hst : lookupAnn ann annotationStartTime = some st)
    (hsp : lookupAnn ann annotationStopTime = some sp)
    (hs : ConvertAnnotationTime c st (annGet ann annotationTimeZone) = some s)
    (he : ConvertAnnotationTime c sp (annGet ann annotationTimeZone) = some e) :
    getDeploymentActionNeeded c ann replicas =
      deployWindowDecide (c.nowIn (annGet ann annotationTimeZone)) s e
        (annGet ann annotationDownTimeReplicas)
        (annGet ann annotationOriginalReplicas) replicas := by
  unfold getDeploymentActionNeeded ConvertTimeNowToLocal
  simp [hzv, hst, hsp, hs, he, getRidOfDate]

theorem getCronjob_eq_window (c : Clock) (ann : List (String × String))
    (suspend : Bool) (st sp : String) (s e : HM)
    (hzv : c.zoneValid (annGet ann annotationTimeZone) = true)
    (hst : lookupAnn ann annotationStartTime = some st)
    (hsp : lookupAnn ann annotationStopTime = some sp)
    (hs : ConvertAnnotationTime c st (annGet ann annotationTimeZone) = some s)
    (he : ConvertAnnotationTime c sp (annGet ann annotationTimeZone) = some e) :
    getCronjobActionNeeded c ann suspend =
      (cronWindowDecide (c.nowIn (annGet ann annotationTimeZone)) s e suspend, []) := by
  unfold getCronjobActionNeeded ConvertTimeNowToLocal
  simp [hzv, hst, hsp, hs, he, getRidOfDate]

theorem isDeployment_eq_of_gates (c : Clock) (ann : List (String × String))
    (replicas : Int) (ds tzv dtrS : String)
    (hd : lookupAnn ann annotationDays = some ds)
    (htz : lookupAnn ann annotationTimeZone = some tzv)
    (hzv : c.zoneValid tzv = true)
    (hcont : strContains ds (weekdayAbbrev (c.weekdayIn tzv)) = true)
    (hdtr : lookupAnn ann annotationDownTimeReplicas = some dtrS) :
    isDeploymentActionNeeded c ann replicas =
      ((getDeploymentActionNeeded c ann replicas).1 != Action.NoAction,
       (getDeploymentActionNeeded c ann replicas).2) := by
  unfold isDeploymentActionNeeded ConvertTimeNowToLocal
  simp [hd, htz, hzv, hcont, hdtr]

/-! ### Characterization of the window deciders -/

theorem dwd_inactive_parse_fail {now s e : HM} {downStr origStr : String} {r : Int}
    (h : (HM.before e now || HM.after s now) = true)
    (hp : parseInt32 downStr = none) :
    deployWindowDecide now s e downStr origStr r =
      (Action.NoAction, [parseIntErrMsg downStr]) := by
  unfold deployWindowDecide
  simp [h, hp]

theorem dwd_inactive_mismatch {now s e : HM} {downStr origStr : String} {r dt : Int}
    (h : (HM.before e now || HM.after s now) = true)
    (hp : parseInt32 downStr = some dt) (hne : r ≠ dt) :
    deployWindowDecide now s e downStr origStr r = (Action.Downscale, []) := by
  unfold deployWindowDecide
  simp [h, hp, hne]

theorem dwd_inactive_match {now s e : HM} {downStr origStr : String} {r dt : Int}
    (h : (HM.before e now || HM.after s now) = true)
    (hp : parseInt32 downStr = some dt) (heq : r = dt) :
    deployWindowDecide now s e downStr origStr r = (Action.NoAction, []) := by
  have hact := inactive_not_active h
  unfold deployWindowDecide
  simp [h, hp, heq, hact]

theorem dwd_active_parse_fail {now s e : HM} {downStr origStr : String} {r : Int}
    (h : (HM.before s now && !(HM.before e now)) = true)
    (hp : parseInt32 origStr = none) :
    deployWindowDecide now s e downStr origStr r =
      (Action.NoAction, [parseIntErrMsg origStr]) := by
  have hin := active_not_inactive h
  unfold deployWindowDecide
  simp [h, hin, hp]

theorem dwd_active_mismatch {now s e : HM} {downStr origStr : String} {r o : Int}
    (h : (HM.before s now && !(HM.before e now)) = true)
    (hp : parseInt32 origStr = some o) (hne : r ≠ o) :
    deployWindowDecide now s e downStr origStr r = (Action.Upscale, []) := by
  have hin := active_not_inactive h
  unfold deployWindowDecide
  simp [h, hin, hp, hne]

theorem dwd_active_match {now s e : HM} {downStr origStr : String} {r o : Int}
    (h : (HM.before s now && !(HM.before e now)) = true)
    (hp : parseInt32 origStr = some o) (heq : r = o) :
    deployWindowDecide now s e downStr origStr r = (Action.NoAction, []) := by
  have hin := active_not_inactive h
  unfold deployWindowDecide
  simp [h, hin, hp, heq]

theorem dwd_neither {now s e : HM} {downStr origStr : String} {r : Int}
    (h1 : (HM.before e now || HM.after s now) = false)
    (h2 : (HM.before s now && !(HM.before e now)) = false) :
    deployWindowDecide now s e downStr origStr r = (Action.NoAction, []) := by
  unfold deployWindowDecide
  simp [h1, h2]

theorem dwd_downscale_imp {now s e : HM} {downStr origStr : String} {r : Int}
    (h : (deployWindowDecide now s e downStr origStr r).1 = Action.Downscale) :
    (HM.before e now || HM.after s now) = true := by
  by_contra hin
  rw [Bool.not_eq_true] at hin
  cases hact : (HM.before s now && !(HM.before e now)) with
  | false => rw [dwd_neither hin hact] at h; simp at h
  | true =>
    cases hp : parseInt32 origStr with
    | none =>
      rw [dwd_active_parse_fail hact hp] at h
      simp at h
    | some o =>
      by_cases heq : r = o
      · rw [dwd_active_match hact hp heq] at h; simp at h
      · rw [dwd_active_mismatch hact hp heq] at h; simp at h

theorem dwd_upscale_imp {now s e : HM} {downStr origStr : String} {r : Int}
    (h : (deployWindowDecide now s e downStr origStr r).1 = Action.Upscale) :
    (HM.before s now && !(HM.before e now)) = true := by
  by_contra hact
  rw [Bool.not_eq_true] at hact
  cases hin : (HM.before e now || HM.after s now) with
  | false => rw [dwd_neither hin hact] at h; simp at h
  | true =>
    cases hp : parseInt32 downStr with
    | none =>
      rw [dwd_inactive_parse_fail hin hp] at h
      simp at h
    | some dt =>
      by_cases heq : r = dt
      · rw [dwd_inactive_match hin hp heq] at h; simp at h
      · rw [dwd_inactive_mismatch hin hp heq] at h; simp at h

theorem cwd_inactive_unsuspended {now s e : HM}
    (h : (HM.before e now || HM.after s now) = true) :
    cronWindowDecide now s e false = Suspend := by
  unfold cronWindowDecide
  simp [h]

theorem cwd_inactive_suspended {now s e : HM}
    (h : (HM.before e now || HM.after s now) = true) :
    cronWindowDecide now s e true = Action.NoAction := by
  have hact := inactive_not_active h
  unfold cronWindowDecide
  simp [h, hact]

theorem cwd_active_suspended {now s e : HM}
    (h : (HM.before s now && !(HM.before e now)) = true) :
    cronWindowDecide now s e true = Resume := by
  have hin := active_not_inactive h
  unfold cronWindowDecide
  simp [h, hin]

theorem cwd_active_unsuspended {now s e : HM}
    (h : (HM.before s now && !(HM.before e now)) = true) :
    cronWindowDecide now s e false = Action.NoAction := by
  have hin := active_not_inactive h
  unfold cronWindowDecide
  simp [h, hin]

theorem cwd_neither {now s e : HM} {suspend : Bool}
    (h1 : (HM.before e now || HM.after s now) = false)
    (h2 : (HM.before s now && !(HM.before e now)) = false) :
    cronWindowDecide now s e suspend = Action.NoAction := by
  unfold cronWindowDecide
  simp [h1, h2]

theorem cwd_suspend_imp {now s e : HM} {suspend : Bool}
    (h : cronWindowDecide now s e suspend = Suspend) :
    (HM.before e now || HM.after s now) = true := by
  by_contra hin
  rw [Bool.not_eq_true] at hin
  cases hact : (HM.before s now && !(HM.before e now)) with
  | false => rw [cwd_neither hin hact] at h; simp [Suspend] at h
  | true =>
    cases suspend with
    | false => rw [cwd_active_unsuspended hact] at h; simp [Suspend] at h
    | true => rw [cwd_active_suspended hact] at h; simp [Suspend, Resume] at h

theorem cwd_resume_imp {now s e : HM} {suspend : Bool}
    (h : cronWindowDecide now s e suspend = Resume) :
    (HM.before s now && !(HM.before e now)) = true := by
  by_contra hact
  rw [Bool.not_eq_true] at hact
  cases hin : (HM.before e now || HM.after s now) with
  | false => rw [cwd_neither hin hact] at h; simp [Resume] at h
  | true =>
    cases suspend with
    | false => rw [cwd_inactive_unsuspended hin] at h; simp [Suspend, Resume] at h
    | true => rw [cwd_inactive_suspended hin] at h; simp [Resume] at h

/-! ### Round-trip of the decimal printer through `ParseInt` -/

theorem digit_char_facts (d : Nat) (h : d < 10) :
    (Char.ofNat (48 + d)).toNat = 48 + d ∧ (Char.ofNat (48 + d)).isDigit = true := by
  interval_cases d <;> exact ⟨by decide, by decide⟩

theorem natDecimalAux_spec (fuel : Nat) : ∀ n, n < fuel →
    natDecimalAux fuel n ≠ [] ∧
    (natDecimalAux fuel n).all Char.isDigit = true ∧
    ∀ acc, (natDecimalAux fuel n).foldl (fun a ch => a * 10 + (ch.toNat - 48)) acc
      = acc * 10 ^ (natDecimalAux fuel n).length + n := by
  induction fuel with
  | zero => intro n h; omega
  | succ fuel ih =>
    intro n h
    by_cases h10 : n < 10
    · obtain ⟨ht, hd⟩ := digit_char_facts n h10
      simp only [natDecimalAux, if_pos h10]
      refine ⟨by simp, by simp [hd], ?_⟩
      intro acc
      simp only [List.foldl, List.length_singleton, pow_one, ht]
      omega
    · have hdiv : n / 10 < fuel := by omega
      obtain ⟨hne, hall, hfold⟩ := ih (n / 10) hdiv
      obtain ⟨ht, hd⟩ := digit_char_facts (n % 10) (Nat.mod_lt n (by omega))
      simp only [natDecimalAux, if_neg h10]
      refine ⟨by simp, ?_, ?_⟩
      · simp [List.all_append, hall, hd]
      · intro acc
        rw [List.foldl_append, hfold acc]
        simp only [List.foldl, List.length_append, List.length_singleton, ht]
        have hnm : n / 10 * 10 + n % 10 = n := by omega
        rw [pow_succ]
        calc (acc * 10 ^ (natDecimalAux fuel (n / 10)).length + n / 10) * 10
              + (48 + n % 10 - 48)
            = acc * (10 ^ (natDecimalAux fuel (n / 10)).length * 10)
              + (n / 10 * 10 + n % 10) := by ring_nf; omega
          _ = acc * (10 ^ (natDecimalAux fuel (n / 10)).length * 10) + n := by
              rw [hnm]

theorem decDigits_natDecimal (n : Nat) : decDigits (natDecimal n) = some n := by
  obtain ⟨hne, hall, hfold⟩ := natDecimalAux_spec (n + 1) n (by omega)
  unfold natDecimal at *
  unfold decDigits
  rw [if_neg (by simp [List.isEmpty_iff, hne]), if_pos hall, hfold 0]
  simp

theorem natDecimal_all_digits (n : Nat) : (natDecimal n).all Char.isDigit = true :=
  (natDecimalAux_spec (n + 1) n (by omega)).2.1

theorem natDecimal_ne_nil (n : Nat) : natDecimal n ≠ [] :=
  (natDecimalAux_spec (n + 1) n (by omega)).1

theorem digit_not_sign {ch : Char} (h : ch.isDigit = true) :
    (ch == '-') = false ∧ (ch == '+') = false := by
  constructor <;> (rw [beq_eq_false_iff_ne]; intro heq; subst heq; exact absurd h (by decide))

/-- `strconv.ParseInt` inverts `fmt.Sprintf("%d", ·)` on every int32 value:
the bookkeeping annotation written on a downscale reads back as the number it
was printed from. -/
theorem parseInt32_intSprintf (v : Int) (h1 : -2147483648 ≤ v)
    (h2 : v ≤ 2147483647) : parseInt32 (intSprintf v) = some v := by
  by_cases hv : v < 0
  · have htl : (intSprintf v).toList = '-' :: natDecimal v.natAbs := by
      unfold intSprintf
      rw [if_pos hv]
      rfl
    have hval : -(Int.ofNat v.natAbs) = v := by
      rw [Int.ofNat_eq_coe]; omega
    unfold parseInt32
    rw [htl]
    simp only [beq_self_eq_true, if_true, decDigits_natDecimal, Option.map_some']
    rw [hval]
    simp [h1, h2]
  · obtain ⟨c, rest, hcr⟩ : ∃ c rest, natDecimal v.natAbs = c :: rest := by
      cases hnd : natDecimal v.natAbs with
      | nil => exact absurd hnd (natDecimal_ne_nil _)
      | cons c rest => exact ⟨c, rest, rfl⟩
    have hdig : c.isDigit = true := by
      have := natDecimal_all_digits v.natAbs
      rw [hcr, List.all_cons, Bool.and_eq_true] at this
      exact this.1
    obtain ⟨hm, hp⟩ := digit_not_sign hdig
    have htl : (intSprintf v).toList = c :: rest := by
      unfold intSprintf
      rw [if_neg hv, hcr]
      rfl
    have hval : Int.ofNat v.natAbs = v := by
      rw [Int.ofNat_eq_coe]; omega
    unfold parseInt32
    rw [htl]
    simp only [hm, hp, Bool.false_eq_true, if_false]
    rw [← hcr, decDigits_natDecimal]
    simp only [Option.map_some']
    rw [hval]
    simp [h1, h2]

/-! ### Behaviour of the per-deployment loop body -/

theorem processDeployment_of_noaction (c : Clock) (d : Deployment)
    (h : (getDeploymentActionNeeded c d.annotations d.replicas).1 = Action.NoAction) :
    processDeployment c d = none := by
  unfold processDeployment
  cases hb : (isDeploymentActionNeeded c d.annotations d.replicas).1 with
  | false => simp [hb]
  | true => simp [hb, h]

theorem processDeployment_of_not_needed (c : Clock) (d : Deployment)
    (h : (isDeploymentActionNeeded c d.annotations d.replicas).1 = false) :
    processDeployment c d = none := by
  unfold processDeployment
  simp [h]

theorem processDeployment_downscale_eq (c : Clock) (d : Deployment) (dt : Int)
    (hneed : (isDeploymentActionNeeded c d.annotations d.replicas).1 = true)
    (hact : (getDeploymentActionNeeded c d.annotations d.replicas).1 = Action.Downscale)
    (hp : parseInt32 (annGet d.annotations annotationDownTimeReplicas) = some dt) :
    processDeployment c d =
      some { d with
        annotations :=
          annSet d.annotations annotationOriginalReplicas (intSprintf d.replicas),
        replicas := dt } := by
  unfold processDeployment
  simp [hneed, hact, hp]

theorem processDeployment_upscale_eq (c : Clock) (d : Deployment) (o : Int)
    (hneed : (isDeploymentActionNeeded c d.annotations d.replicas).1 = true)
    (hact : (getDeploymentActionNeeded c d.annotations d.replicas).1 = Action.Upscale)
    (hp : parseInt32 (annGet d.annotations annotationOriginalReplicas) = some o) :
    processDeployment c d = some { d with replicas := o } := by
  unfold processDeployment
  simp [hneed, hact, hp]

theorem processDeployment_downscale_inv (c : Clock) (d d2 : Deployment)
    (hact : (getDeploymentActionNeeded c d.annotations d.replicas).1 = Action.Downscale)
    (hsome : processDeployment c d = some d2) :
    ∃ dt, parseInt32 (annGet d.annotations annotationDownTimeReplicas) = some dt ∧
      d2 = { d with
        annotations :=
          annSet d.annotations annotationOriginalReplicas (intSprintf d.replicas),
        replicas := dt } := by
  unfold processDeployment at hsome
  cases hb : (isDeploymentActionNeeded c d.annotations d.replicas).1 with
  | false => rw [hb] at hsome; simp at hsome
  | true =>
    rw [hb] at hsome
    simp only [if_true] at hsome
    rw [hact] at hsome
    cases hp : parseInt32 (annGet d.annotations annotationDownTimeReplicas) with
    | none => rw [hp] at hsome; simp at hsome
    | some dt =>
      rw [hp] at hsome
      simp only [Option.some.injEq] at hsome
      exact ⟨dt, rfl, hsome.symm⟩

theorem processDeployment_upscale_inv (c : Clock) (d d2 : Deployment)
    (hact : (getDeploymentActionNeeded c d.annotations d.replicas).1 = Action.Upscale)
    (hsome : processDeployment c d = some d2) :
    ∃ o, parseInt32 (annGet d.annotations annotationOriginalReplicas) = some o ∧
      d2 = { d with replicas := o } := by
  unfold processDeployment at hsome
  cases hb : (isDeploymentActionNeeded c d.annotations d.replicas).1 with
  | false => rw [hb] at hsome; simp at hsome
  | true =>
    rw [hb] at hsome
    simp only [if_true] at hsome
    rw [hact] at hsome
    cases hp : parseInt32 (annGet d.annotations annotationOriginalReplicas) with
    | none => rw [hp] at hsome; simp at hsome
    | some o =>
      rw [hp] at hsome
      simp only [Option.some.injEq] at hsome
      exact ⟨o, rfl, hsome.symm⟩

/-! ### Concrete fixtures (the nginx example shipped with the repository) -/

/-- A clock whose timezone database knows exactly `Europe/Prague` (a
whole-hour-offset zone), observing the given wall-clock time and weekday. -/
def pragueClock (now : HM) (wd : String) : Clock :=
  { zoneValid := fun tz => tz == "Europe/Prague"
    zoneFormatOk := fun _ => true
    nowIn := fun _ => now
    weekdayIn := fun _ => wd }

/-- The annotations of the example deployment from the repository manifest. -/
def scheduleAnn : List (String × String) :=
  [(annotationDays, "Mon,Tue,Wed,Thu,Fri"), (annotationStartTime, "08:00"),
   (annotationStopTime, "16:00"), (annotationTimeZone, "Europe/Prague"),
   (annotationDownTimeReplicas, "1")]

/-- The example annotations after a previous downscale recorded
`d8r/originalReplicas = "2"`. -/
def scheduleAnnOrig : List (String × String) :=
  scheduleAnn ++ [(annotationOriginalReplicas, "2")]

/-- The example annotations with start and stop swapped: an overnight window
(`startTime` strictly later than `stopTime`). -/
def overnightAnn : List (String × String) :=
  [(annotationDays, "Mon,Tue,Wed,Thu,Fri"), (annotationStartTime, "16:00"),
   (annotationStopTime, "08:00"), (annotationTimeZone, "Europe/Prague"),
   (annotationDownTimeReplicas, "1"), (annotationOriginalReplicas, "2")]

/-! ### Claim C1 -/

/-- Claim C1 counterexample.  At `now = startTime` (Wednesday 08:00 with the
window 08:00-16:00, a scheduled day, replicas 1 differing from the recorded
originalReplicas 2) the claim asserts the resource is already in the uptime
window and eligible for ScaleUp/Resume; the code returns `NoAction` for the
deployment (not `Upscale`) and `NoAction` for a suspended cronjob (not
`Resume`), because `timeStartTime.Before(timeNow)` is strict. -/
theorem claim_C1_counterexample :
    ConvertAnnotationTime (pragueClock ⟨8, 0⟩ "Wednesday") "08:00"
        (annGet scheduleAnnOrig annotationTimeZone) = some ⟨8, 0⟩ ∧
    ConvertAnnotationTime (pragueClock ⟨8, 0⟩ "Wednesday") "16:00"
        (annGet scheduleAnnOrig annotationTimeZone) = some ⟨16, 0⟩ ∧
    HM.before ⟨8, 0⟩ ⟨16, 0⟩ = true ∧
    (pragueClock ⟨8, 0⟩ "Wednesday").nowIn "Europe/Prague" = ⟨8, 0⟩ ∧
    strContains "Mon,Tue,Wed,Thu,Fri" "Wed" = true ∧
    parseInt32 (annGet scheduleAnnOrig annotationOriginalReplicas) = some 2 ∧
    (1 : Int) ≠ 2 ∧
    (getDeploymentActionNeeded (pragueClock ⟨8, 0⟩ "Wednesday") scheduleAnnOrig 1).1
      = Action.NoAction ∧
    (getDeploymentActionNeeded (pragueClock ⟨8, 0⟩ "Wednesday") scheduleAnnOrig 1).1
      ≠ Action.Upscale ∧
    (getCronjobActionNeeded (pragueClock ⟨8, 0⟩ "Wednesday") scheduleAnnOrig true).1
      = Action.NoAction ∧
    (getCronjobActionNeeded (pragueClock ⟨8, 0⟩ "Wednesday") scheduleAnnOrig true).1
      ≠ Resume := by
  decide

/-- Claim C1 (amended).  For a same-day window (startTime strictly earlier
than stopTime): the instant `now = startTime` is not yet in the uptime window
— both deciders return `NoAction` there regardless of observed state — and
uptime actions become possible only strictly after startTime; the instant
`now = stopTime` is still in the uptime window (eligible for ScaleUp/Resume);
only instants strictly after stopTime are inactive (eligible for
ScaleDown/Suspend). -/
theorem claim_C1 (c : Clock) (ann : List (String × String)) (r : Int)
    (st sp : String) (s e now : HM)
    (hzv : c.zoneValid (annGet ann annotationTimeZone) = true)
    (hst : lookupAnn ann annotationStartTime = some st)
    (hsp : lookupAnn ann annotationStopTime = some sp)
    (hs : ConvertAnnotationTime c st (annGet ann annotationTimeZone) = some s)
    (he : ConvertAnnotationTime c sp (annGet ann annotationTimeZone) = some e)
    (hnow : c.nowIn (annGet ann annotationTimeZone) = now)
    (hlt : HM.before s e = true) :
    (now = s → (getDeploymentActionNeeded c ann r).1 = Action.NoAction) ∧
    (now = s → ∀ su : Bool, (getCronjobActionNeeded c ann su).1 = Action.NoAction) ∧
    (now = e → ∀ o : Int, parseInt32 (annGet ann annotationOriginalReplicas) = some o →
      r ≠ o → (getDeploymentActionNeeded c ann r).1 = Action.Upscale) ∧
    (now = e → (getCronjobActionNeeded c ann true).1 = Resume) ∧
    (HM.before e now = true → ∀ dt : Int,
      parseInt32 (annGet ann annotationDownTimeReplicas) = some dt →
      r ≠ dt → (getDeploymentActionNeeded c ann r).1 = Action.Downscale) ∧
    (HM.before e now = true → (getCronjobActionNeeded c ann false).1 = Suspend) := by
  have hdep := getDeployment_eq_window c ann r st sp s e hzv hst hsp hs he
  rw [hnow] at hdep
  have hcron : ∀ su : Bool, getCronjobActionNeeded c ann su =
      (cronWindowDecide now s e su, []) := by
    intro su
    have h := getCronjob_eq_window c ann su st sp s e hzv hst hsp hs he
    rw [hnow] at h
    exact h
  refine ⟨?_, ?_, ?_, ?_, ?_, ?_⟩
  · intro hns
    subst hns
    have h1 : (HM.before e now || HM.after now now) = false := by
      simp [HM.after, HM.before_irrefl, HM.before_asymm hlt]
    have h2 : (HM.before now now && !(HM.before e now)) = false := by
      simp [HM.before_irrefl]
    rw [hdep, dwd_neither h1 h2]
  · intro hns su
    subst hns
    have h1 : (HM.before e now || HM.after now now) = false := by
      simp [HM.after, HM.before_irrefl, HM.before_asymm hlt]
    have h2 : (HM.before now now && !(HM.before e now)) = false := by
      simp [HM.before_irrefl]
    rw [hcron su, cwd_neither h1 h2]
  · intro hne o hp hro
    subst hne
    have hact : (HM.before s now && !(HM.before now now)) = true := by
      simp [HM.before_irrefl, hlt]
    rw [hdep, dwd_active_mismatch hact hp hro]
  · intro hne
    subst hne
    have hact : (HM.before s now && !(HM.before now now)) = true := by
      simp [HM.before_irrefl, hlt]
    rw [hcron true, cwd_active_suspended hact]
  · intro hpast dt hp hrdt
    have hin : (HM.before e now || HM.after s now) = true := by
      simp [hpast]
    rw [hdep, dwd_inactive_mismatch hin hp hrdt]
  · intro hpast
    have hin : (HM.before e now || HM.after s now) = true := by
      simp [hpast]
    rw [hcron false, cwd_inactive_unsuspended hin]

/-- Claim C1 witness: the amended claim instantiated on the repository's
example schedule, observed Wednesday 16:00 (the stop instant, still uptime)
and Wednesday 20:00 (strictly after stop, downtime). -/
theorem claim_C1_witness :
    (getDeploymentActionNeeded (pragueClock ⟨16, 0⟩ "Wednesday") scheduleAnnOrig 1).1
      = Action.Upscale ∧
    (getDeploymentActionNeeded (pragueClock ⟨20, 0⟩ "Wednesday") scheduleAnnOrig 2).1
      = Action.Downscale := by
  constructor
  · exact (claim_C1 (pragueClock ⟨16, 0⟩ "Wednesday") scheduleAnnOrig 1
      "08:00" "16:00" ⟨8, 0⟩ ⟨16, 0⟩ ⟨16, 0⟩ (by decide) (by decide) (by decide)
      (by decide) (by decide) (by decide) (by decide)).2.2.1 rfl 2 (by decide)
      (by decide)
  · exact (claim_C1 (pragueClock ⟨20, 0⟩ "Wednesday") scheduleAnnOrig 2
      "08:00" "16:00" ⟨8, 0⟩ ⟨16, 0⟩ ⟨20, 0⟩ (by decide) (by decide) (by decide)
      (by decide) (by decide) (by decide) (by decide)).2.2.2.2.1 (by decide) 1
      (by decide) (by decide)

/-! ### Claim C2 -/

/-- Claim C2.  With the date-stripped current time `now` and window endpoints
`s` (start) and `e` (stop) in hand, the deciders classify the instant as
downtime exactly under `windowEnd.Before(now) || windowStart.After(now)` and
as uptime exactly under `windowStart.Before(now) && !windowEnd.Before(now)`:
the downtime actions Downscale/Suspend are reachable only under the former
condition, the uptime actions Upscale/Resume only under the latter, and under
each condition the corresponding action is indeed produced once the
idempotency guard and (for deployments) the integer parse pass. -/
theorem claim_C2 (c : Clock) (ann : List (String × String)) (r : Int) (su : Bool)
    (st sp : String) (s e now : HM)
    (hzv : c.zoneValid (annGet ann annotationTimeZone) = true)
    (hst : lookupAnn ann annotationStartTime = some st)
    (hsp : lookupAnn ann annotationStopTime = some sp)
    (hs : ConvertAnnotationTime c st (annGet ann annotationTimeZone) = some s)
    (he : ConvertAnnotationTime c sp (annGet ann annotationTimeZone) = some e)
    (hnow : c.nowIn (annGet ann annotationTimeZone) = now) :
    ((getDeploymentActionNeeded c ann r).1 = Action.Downscale →
      (HM.before e now || HM.after s now) = true) ∧
    ((getDeploymentActionNeeded c ann r).1 = Action.Upscale →
      (HM.before s now && !(HM.before e now)) = true) ∧
    ((getCronjobActionNeeded c ann su).1 = Suspend →
      (HM.before e now || HM.after s now) = true) ∧
    ((getCronjobActionNeeded c ann su).1 = Resume →
      (HM.before s now && !(HM.before e now)) = true) ∧
    ((HM.before e now || HM.after s now) = true → ∀ dt : Int,
      parseInt32 (annGet ann annotationDownTimeReplicas) = some dt → r ≠ dt →
      (getDeploymentActionNeeded c ann r).1 = Action.Downscale) ∧
    ((HM.before s now && !(HM.before e now)) = true → ∀ o : Int,
      parseInt32 (annGet ann annotationOriginalReplicas) = some o → r ≠ o →
      (getDeploymentActionNeeded c ann r).1 = Action.Upscale) ∧
    ((HM.before e now || HM.after s now) = true →
      (getCronjobActionNeeded c ann false).1 = Suspend) ∧
    ((HM.before s now && !(HM.before e now)) = true →
      (getCronjobActionNeeded c ann true).1 = Resume) := by
  have hdep := getDeployment_eq_window c ann r st sp s e hzv hst hsp hs he
  rw [hnow] at hdep
  have hcron : ∀ b : Bool, getCronjobActionNeeded c ann b =
      (cronWindowDecide now s e b, []) := by
    intro b
    have h := getCronjob_eq_window c ann b st sp s e hzv hst hsp hs he
    rw [hnow] at h
    exact h
  refine ⟨?_, ?_, ?_, ?_, ?_, ?_, ?_, ?_⟩
  · intro h
    rw [hdep] at h
    exact dwd_downscale_imp h
  · intro h
    rw [hdep] at h
    exact dwd_upscale_imp h
  · intro h
    rw [hcron su] at h
    exact cwd_suspend_imp h
  · intro h
    rw [hcron su] at h
    exact cwd_resume_imp h
  · intro hin dt hp hne
    rw [hdep, dwd_inactive_mismatch hin hp hne]
  · intro hact o hp hne
    rw [hdep, dwd_active_mismatch hact hp hne]
  · intro hin
    rw [hcron false, cwd_inactive_unsuspended hin]
  · intro hact
    rw [hcron true, cwd_active_suspended hact]

/-- Claim C2 witness: on the example schedule the downtime condition at
Wednesday 20:00 yields Downscale for replicas 2, and the uptime condition at
Wednesday 09:00 yields Resume for a suspended cronjob. -/
theorem claim_C2_witness :
    (getDeploymentActionNeeded (pragueClock ⟨20, 0⟩ "Wednesday") scheduleAnn 2).1
      = Action.Downscale ∧
    (getCronjobActionNeeded (pragueClock ⟨9, 0⟩ "Wednesday") scheduleAnn true).1
      = Resume := by
  constructor
  · exact (claim_C2 (pragueClock ⟨20, 0⟩ "Wednesday") scheduleAnn 2 false
      "08:00" "16:00" ⟨8, 0⟩ ⟨16, 0⟩ ⟨20, 0⟩ (by decide) (by decide) (by decide)
      (by decide) (by decide) (by decide)).2.2.2.2.1 (by decide) 1 (by decide)
      (by decide)
  · exact (claim_C2 (pragueClock ⟨9, 0⟩ "Wednesday") scheduleAnn 2 true
      "08:00" "16:00" ⟨8, 0⟩ ⟨16, 0⟩ ⟨9, 0⟩ (by decide) (by decide) (by decide)
      (by decide) (by decide) (by decide)).2.2.2.2.2.2.2 (by decide)

/-! ### Claim C3 -/

/-- Claim C3.  The decision is idempotent with respect to observed state:
during downtime a deployment whose replica count already equals the parsed
downtime target gets `NoAction`, and a cronjob that is already suspended gets
`NoAction`; during uptime a deployment whose replica count already equals the
parsed recorded original gets `NoAction`, and a cronjob that is not suspended
gets `NoAction`. -/
theorem claim_C3 (c : Clock) (ann : List (String × String)) (r : Int)
    (st sp : String) (s e now : HM)
    (hzv : c.zoneValid (annGet ann annotationTimeZone) = true)
    (hst : lookupAnn ann annotationStartTime = some st)
    (hsp : lookupAnn ann annotationStopTime = some sp)
    (hs : ConvertAnnotationTime c st (annGet ann annotationTimeZone) = some s)
    (he : ConvertAnnotationTime c sp (annGet ann annotationTimeZone) = some e)
    (hnow : c.nowIn (annGet ann annotationTimeZone) = now) :
    ((HM.before e now || HM.after s now) = true → ∀ dt : Int,
      parseInt32 (annGet ann annotationDownTimeReplicas) = some dt → r = dt →
      (getDeploymentActionNeeded c ann r).1 = Action.NoAction) ∧
    ((HM.before s now && !(HM.before e now)) = true → ∀ o : Int,
      parseInt32 (annGet ann annotationOriginalReplicas) = some o → r = o →
      (getDeploymentActionNeeded c ann r).1 = Action.NoAction) ∧
    ((HM.before e now || HM.after s now) = true →
      (getCronjobActionNeeded c ann true).1 = Action.NoAction) ∧
    ((HM.before s now && !(HM.before e now)) = true →
      (getCronjobActionNeeded c ann false).1 = Action.NoAction) := by
  have hdep := getDeployment_eq_window c ann r st sp s e hzv hst hsp hs he
  rw [hnow] at hdep
  have hcron : ∀ b : Bool, getCronjobActionNeeded c ann b =
      (cronWindowDecide now s e b, []) := by
    intro b
    have h := getCronjob_eq_window c ann b st sp s e hzv hst hsp hs he
    rw [hnow] at h
    exact h
  refine ⟨?_, ?_, ?_, ?_⟩
  · intro hin dt hp heq
    rw [hdep, dwd_inactive_match hin hp heq]
  · intro hact o hp heq
    rw [hdep, dwd_active_match hact hp heq]
  · intro hin
    rw [hcron true, cwd_inactive_suspended hin]
  · intro hact
    rw [hcron false, cwd_active_unsuspended hact]

/-- Claim C3 witness: on the example schedule, a deployment already at the
downtime target during downtime, a deployment already at the recorded
original during uptime, a suspended cronjob during downtime and a running
cronjob during uptime all get `NoAction`. -/
theorem claim_C3_witness :
    (getDeploymentActionNeeded (pragueClock ⟨20, 0⟩ "Wednesday") scheduleAnnOrig 1).1
      = Action.NoAction ∧
    (getDeploymentActionNeeded (pragueClock ⟨9, 0⟩ "Wednesday") scheduleAnnOrig 2).1
      = Action.NoAction ∧
    (getCronjobActionNeeded (pragueClock ⟨20, 0⟩ "Wednesday") scheduleAnn true).1
      = Action.NoAction ∧
    (getCronjobActionNeeded (pragueClock ⟨9, 0⟩ "Wednesday") scheduleAnn false).1
      = Action.NoAction := by
  refine ⟨?_, ?_, ?_, ?_⟩
  · exact (claim_C3 (pragueClock ⟨20, 0⟩ "Wednesday") scheduleAnnOrig 1
      "08:00" "16:00" ⟨8, 0⟩ ⟨16, 0⟩ ⟨20, 0⟩ (by decide) (by decide) (by decide)
      (by decide) (by decide) (by decide)).1 (by decide) 1 (by decide) rfl
  · exact (claim_C3 (pragueClock ⟨9, 0⟩ "Wednesday") scheduleAnnOrig 2
      "08:00" "16:00" ⟨8, 0⟩ ⟨16, 0⟩ ⟨9, 0⟩ (by decide) (by decide) (by decide)
      (by decide) (by decide) (by decide)).2.1 (by decide) 2 (by decide) rfl
  · exact (claim_C3 (pragueClock ⟨20, 0⟩ "Wednesday") scheduleAnn 0
      "08:00" "16:00" ⟨8, 0⟩ ⟨16, 0⟩ ⟨20, 0⟩ (by decide) (by decide) (by decide)
      (by decide) (by decide) (by decide)).2.2.1 (by decide)
  · exact (claim_C3 (pragueClock ⟨9, 0⟩ "Wednesday") scheduleAnn 0
      "08:00" "16:00" ⟨8, 0⟩ ⟨16, 0⟩ ⟨9, 0⟩ (by decide) (by decide) (by decide)
      (by decide) (by decide) (by decide)).2.2.2 (by decide)

/-! ### Claim C4 -/

/-- Claim C4.  The decision functions are deterministic in their inputs
(repeated calls on the same annotations, observed replicas and clock return
the same result), and once the day and required-annotation gates pass,
`isDeploymentActionNeeded` returns `true` exactly when
`getDeploymentActionNeeded` on the same inputs returns an action other than
`NoAction` — so the driver's check-then-act pair acts on one consistent
decision. -/
theorem claim_C4 (c : Clock) (ann : List (String × String)) (r : Int)
    (ds tzv dtrS : String)
    (hd : lookupAnn ann annotationDays = some ds)
    (htz : lookupAnn ann annotationTimeZone = some tzv)
    (hzv : c.zoneValid tzv = true)
    (hcont : strContains ds (weekdayAbbrev (c.weekdayIn tzv)) = true)
    (hdtr : lookupAnn ann annotationDownTimeReplicas = some dtrS) :
    getDeploymentActionNeeded c ann r = getDeploymentActionNeeded c ann r ∧
    isDeploymentActionNeeded c ann r = isDeploymentActionNeeded c ann r ∧
    ((isDeploymentActionNeeded c ann r).1 = true ↔
      (getDeploymentActionNeeded c ann r).1 ≠ Action.NoAction) := by
  refine ⟨rfl, rfl, ?_⟩
  rw [isDeployment_eq_of_gates c ann r ds tzv dtrS hd htz hzv hcont hdtr]
  simp [bne_iff_ne]

/-- Claim C4 witness: on the example schedule at Wednesday 20:00 with
replicas 2 the check returns `true` and, consistently, the decided action is
not `NoAction`. -/
theorem claim_C4_witness :
    (isDeploymentActionNeeded (pragueClock ⟨20, 0⟩ "Wednesday") scheduleAnn 2).1
      = true := by
  exact (claim_C4 (pragueClock ⟨20, 0⟩ "Wednesday") scheduleAnn 2
    "Mon,Tue,Wed,Thu,Fri" "Europe/Prague" "1" (by decide) (by decide) (by decide)
    (by decide) (by decide)).2.2.mpr (by decide)

/-! ### Claim C5 -/

/-- When the timezone is loadable, a deployment whose `startTime` or
`stopTime` annotation is absent is decided `NoAction` with nothing logged. -/
theorem getDeployment_missing_times (c : Clock) (ann : List (String × String))
    (r : Int)
    (hzv : c.zoneValid (annGet ann annotationTimeZone) = true)
    (h : lookupAnn ann annotationStartTime = none ∨
      lookupAnn ann annotationStopTime = none) :
    getDeploymentActionNeeded c ann r = (Action.NoAction, []) := by
  unfold getDeploymentActionNeeded ConvertTimeNowToLocal
  rcases h with h | h
  · simp [hzv, h]
  · cases hst : lookupAnn ann annotationStartTime <;> simp [hzv, h, hst]

/-- Claim C5.  If any of the `d8r/days`, `d8r/startTime`, `d8r/stopTime` or
`d8r/timeZone` annotations is absent, the evaluation yields no action and no
error is surfaced (nothing is logged): the resource is silently skipped.  The
only side condition is for the start/stop cases, where the timezone must be
loadable — otherwise the independent timezone error (not the missing key) is
the one logged.  Since the evaluation is a pure function of its inputs, the
same silent skip recurs on every polling cycle. -/
theorem claim_C5 (c : Clock) (ann : List (String × String)) (r : Int) :
    ((lookupAnn ann annotationDays = none ∨
        lookupAnn ann annotationTimeZone = none) →
      isDeploymentActionNeeded c ann r = (false, [])) ∧
    (c.zoneValid (annGet ann annotationTimeZone) = true →
      (lookupAnn ann annotationStartTime = none ∨
        lookupAnn ann annotationStopTime = none) →
      isDeploymentActionNeeded c ann r = (false, []) ∧
      getDeploymentActionNeeded c ann r = (Action.NoAction, [])) := by
  constructor
  · intro h
    unfold isDeploymentActionNeeded
    rcases h with h | h
    · simp [h]
    · cases hdd : lookupAnn ann annotationDays <;> simp [hdd, h]
  · intro hzv h
    have hget := getDeployment_missing_times c ann r hzv h
    refine ⟨?_, hget⟩
    unfold isDeploymentActionNeeded ConvertTimeNowToLocal
    cases hdd : lookupAnn ann annotationDays with
    | none => simp [hdd]
    | some ds =>
      cases htz : lookupAnn ann annotationTimeZone with
      | none => simp [hdd, htz]
      | some tzv =>
        have hzv2 : c.zoneValid tzv = true := by
          rw [annGet_of_lookup htz] at hzv
          exact hzv
        cases hcont : strContains ds (weekdayAbbrev (c.weekdayIn tzv)) with
        | false => simp [hdd, htz, hzv2, hcont]
        | true =>
          cases hdtr : lookupAnn ann annotationDownTimeReplicas with
          | none => simp [hdd, htz, hzv2, hcont, hdtr]
          | some dtrS => simp [hdd, htz, hzv2, hcont, hdtr, hget]

/-- Claim C5 witness: with the `d8r/stopTime` annotation removed from the
example schedule, the check is silently false and the decided action is
silently `NoAction`. -/
theorem claim_C5_witness :
    isDeploymentActionNeeded (pragueClock ⟨20, 0⟩ "Wednesday")
      [(annotationDays, "Mon,Tue,Wed,Thu,Fri"), (annotationStartTime, "08:00"),
       (annotationTimeZone, "Europe/Prague"), (annotationDownTimeReplicas, "1")]
      2 = (false, []) ∧
    getDeploymentActionNeeded (pragueClock ⟨20, 0⟩ "Wednesday")
      [(annotationDays, "Mon,Tue,Wed,Thu,Fri"), (annotationStartTime, "08:00"),
       (annotationTimeZone, "Europe/Prague"), (annotationDownTimeReplicas, "1")]
      2 = (Action.NoAction, []) := by
  exact (claim_C5 (pragueClock ⟨20, 0⟩ "Wednesday")
    [(annotationDays, "Mon,Tue,Wed,Thu,Fri"), (annotationStartTime, "08:00"),
     (annotationTimeZone, "Europe/Prague"), (annotationDownTimeReplicas, "1")]
    2).2 (by decide) (Or.inr (by decide))

/-! ### Claim C6 -/

/-- Claim C6.  The day gate computes today's abbreviation as the first three
characters of the weekday name of the current time in the resource's
timezone, and tests membership by substring containment of that abbreviation
in the `d8r/days` value (so a days value containing `"Monday"` matches
`"Mon"`).  When the abbreviation is not contained, both checks return `false`
with nothing logged — regardless of window position or observed state — and
the driver writes nothing. -/
theorem claim_C6 (c : Clock) (ann : List (String × String)) (r : Int)
    (su : Bool) (ds tzv : String)
    (hd : lookupAnn ann annotationDays = some ds)
    (htz : lookupAnn ann annotationTimeZone = some tzv)
    (hzv : c.zoneValid tzv = true)
    (hnc : strContains ds (weekdayAbbrev (c.weekdayIn tzv)) = false) :
    ConvertTimeNowToLocal c tzv
      = some (c.nowIn tzv, weekdayAbbrev (c.weekdayIn tzv)) ∧
    isDeploymentActionNeeded c ann r = (false, []) ∧
    isCronjobActionNeeded c ann su = (false, []) ∧
    (∀ ns nm : String, processDeployment c ⟨ns, nm, ann, r⟩ = none) ∧
    strContains "Monday" "Mon" = true := by
  have his : isDeploymentActionNeeded c ann r = (false, []) := by
    unfold isDeploymentActionNeeded ConvertTimeNowToLocal
    simp [hd, htz, hzv, hnc]
  refine ⟨?_, his, ?_, ?_, by decide⟩
  · unfold ConvertTimeNowToLocal
    simp [hzv, getRidOfDate]
  · unfold isCronjobActionNeeded ConvertTimeNowToLocal
    simp [hd, htz, hzv, hnc]
  · intro ns nm
    exact processDeployment_of_not_needed c ⟨ns, nm, ann, r⟩ (by rw [his])

/-- Claim C6 witness: Saturday is not contained in `"Mon,Tue,Wed,Thu,Fri"`,
so the example deployment is skipped at Saturday 20:00 whatever its replica
count, while `"Monday"` would loosely match `"Mon"`. -/
theorem claim_C6_witness :
    isDeploymentActionNeeded (pragueClock ⟨20, 0⟩ "Saturday") scheduleAnn 2
      = (false, []) ∧
    strContains "Monday" "Mon" = true := by
  have h := claim_C6 (pragueClock ⟨20, 0⟩ "Saturday") scheduleAnn 2 false
    "Mon,Tue,Wed,Thu,Fri" "Europe/Prague" (by decide) (by decide) (by decide)
    (by decide)
  exact ⟨h.2.1, h.2.2.2.2⟩

/-! ### Claim C7 -/

/-- Claim C7.  For every spec whose startTime is strictly later than its
stopTime (an overnight window) and every current instant, the evaluation
never classifies the instant as uptime: the deployment decider cannot return
`Upscale` and the cronjob decider cannot return `Resume`; only `NoAction` or
the downtime action are possible. -/
theorem claim_C7 (c : Clock) (ann : List (String × String)) (r : Int)
    (su : Bool) (st sp : String) (s e : HM)
    (hzv : c.zoneValid (annGet ann annotationTimeZone) = true)
    (hst : lookupAnn ann annotationStartTime = some st)
    (hsp : lookupAnn ann annotationStopTime = some sp)
    (hs : ConvertAnnotationTime c st (annGet ann annotationTimeZone) = some s)
    (he : ConvertAnnotationTime c sp (annGet ann annotationTimeZone) = some e)
    (hlt : HM.before e s = true) :
    (getDeploymentActionNeeded c ann r).1 ≠ Action.Upscale ∧
    ((getDeploymentActionNeeded c ann r).1 = Action.NoAction ∨
      (getDeploymentActionNeeded c ann r).1 = Action.Downscale) ∧
    (getCronjobActionNeeded c ann su).1 ≠ Resume ∧
    ((getCronjobActionNeeded c ann su).1 = Action.NoAction ∨
      (getCronjobActionNeeded c ann su).1 = Suspend) := by
  have hdep := getDeployment_eq_window c ann r st sp s e hzv hst hsp hs he
  have hcron := getCronjob_eq_window c ann su st sp s e hzv hst hsp hs he
  have hnoact : ∀ now : HM, (HM.before s now && !(HM.before e now)) ≠ true := by
    intro now hact
    rcases Bool.and_eq_true_iff.mp hact with ⟨h1, h2⟩
    have h3 := HM.before_trans hlt h1
    rw [h3] at h2
    simp at h2
  have h1 : (getDeploymentActionNeeded c ann r).1 ≠ Action.Upscale := by
    intro h
    rw [hdep] at h
    exact hnoact _ (dwd_upscale_imp h)
  have h3 : (getCronjobActionNeeded c ann su).1 ≠ Resume := by
    intro h
    rw [hcron] at h
    exact hnoact _ (cwd_resume_imp h)
  refine ⟨h1, ?_, h3, ?_⟩
  · cases hA : (getDeploymentActionNeeded c ann r).1 with
    | Upscale => exact absurd hA h1
    | Downscale => exact Or.inr rfl
    | NoAction => exact Or.inl rfl
  · cases hA : (getCronjobActionNeeded c ann su).1 with
    | Upscale => exact Or.inr rfl
    | Downscale => exact absurd hA h3
    | NoAction => exact Or.inl rfl

/-- Claim C7 witness: with the window endpoints swapped (start 16:00, stop
08:00) and replicas differing from both recorded values, the decider still
cannot upscale — at 12:00, between stop and start, the deployment is
downscaled and a suspended cronjob is not resumed. -/
theorem claim_C7_witness :
    (getDeploymentActionNeeded (pragueClock ⟨12, 0⟩ "Wednesday") overnightAnn 3).1
      ≠ Action.Upscale ∧
    (getCronjobActionNeeded (pragueClock ⟨12, 0⟩ "Wednesday") overnightAnn true).1
      ≠ Resume := by
  have h := claim_C7 (pragueClock ⟨12, 0⟩ "Wednesday") overnightAnn 3 true
    "16:00" "08:00" ⟨16, 0⟩ ⟨8, 0⟩ (by decide) (by decide) (by decide)
    (by decide) (by decide) (by decide)
  exact ⟨h.1, h.2.2.1⟩

/-! ### Claim C8 -/

/-- Claim C8.  When `d8r/downTimeReplicas` (consulted during downtime) or
`d8r/originalReplicas` (consulted during uptime) is absent — Go map indexing
then yields `""` — or does not parse as a base-10 int32, the deployment
decider returns `NoAction` for that resource and the failure is reported via
logging (the parse-error message is the one logged entry); the driver then
performs no write, leaving the resource unmodified. -/
theorem claim_C8 (c : Clock) (ann : List (String × String)) (r : Int)
    (st sp : String) (s e now : HM)
    (hzv : c.zoneValid (annGet ann annotationTimeZone) = true)
    (hst : lookupAnn ann annotationStartTime = some st)
    (hsp : lookupAnn ann annotationStopTime = some sp)
    (hs : ConvertAnnotationTime c st (annGet ann annotationTimeZone) = some s)
    (he : ConvertAnnotationTime c sp (annGet ann annotationTimeZone) = some e)
    (hnow : c.nowIn (annGet ann annotationTimeZone) = now) :
    (lookupAnn ann annotationDownTimeReplicas = none →
      parseInt32 (annGet ann annotationDownTimeReplicas) = none) ∧
    (lookupAnn ann annotationOriginalReplicas = none →
      parseInt32 (annGet ann annotationOriginalReplicas) = none) ∧
    ((HM.before e now || HM.after s now) = true →
      parseInt32 (annGet ann annotationDownTimeReplicas) = none →
      getDeploymentActionNeeded c ann r =
        (Action.NoAction, [parseIntErrMsg (annGet ann annotationDownTimeReplicas)])) ∧
    ((HM.before s now && !(HM.before e now)) = true →
      parseInt32 (annGet ann annotationOriginalReplicas) = none →
      getDeploymentActionNeeded c ann r =
        (Action.NoAction, [parseIntErrMsg (annGet ann annotationOriginalReplicas)])) ∧
    ((getDeploymentActionNeeded c ann r).1 = Action.NoAction →
      ∀ ns nm : String, processDeployment c ⟨ns, nm, ann, r⟩ = none) := by
  have hdep := getDeployment_eq_window c ann r st sp s e hzv hst hsp hs he
  rw [hnow] at hdep
  refine ⟨?_, ?_, ?_, ?_, ?_⟩
  · intro h
    rw [annGet_of_lookup_none h]
    decide
  · intro h
    rw [annGet_of_lookup_none h]
    decide
  · intro hin hp
    rw [hdep, dwd_inactive_parse_fail hin hp]
  · intro hact hp
    rw [hdep, dwd_active_parse_fail hact hp]
  · intro h ns nm
    exact processDeployment_of_noaction c ⟨ns, nm, ann, r⟩ h

/-- Claim C8 witness: with `d8r/downTimeReplicas = "abc"` during downtime the
decided result is `NoAction` with the parse failure logged, and the driver
writes nothing. -/
theorem claim_C8_witness :
    getDeploymentActionNeeded (pragueClock ⟨20, 0⟩ "Wednesday")
        (annSet scheduleAnn annotationDownTimeReplicas "abc") 2 =
      (Action.NoAction,
        [parseIntErrMsg (annGet (annSet scheduleAnn annotationDownTimeReplicas "abc")
          annotationDownTimeReplicas)]) ∧
    processDeployment (pragueClock ⟨20, 0⟩ "Wednesday")
      ⟨"default", "nginx", annSet scheduleAnn annotationDownTimeReplicas "abc", 2⟩
      = none := by
  have h := claim_C8 (pragueClock ⟨20, 0⟩ "Wednesday")
    (annSet scheduleAnn annotationDownTimeReplicas "abc") 2
    "08:00" "16:00" ⟨8, 0⟩ ⟨16, 0⟩ ⟨20, 0⟩ (by decide) (by decide) (by decide)
    (by decide) (by decide) (by decide)
  have h1 := h.2.2.1 (by decide) (by decide)
  refine ⟨h1, ?_⟩
  exact h.2.2.2.2 (by rw [h1]) "default" "nginx"

/-! ### Claims C9 and C10: the mutation step -/

/-- The example deployment of the repository manifest: 2 replicas, the
workday 08:00-16:00 schedule. -/
def nginxDeployment : Deployment := ⟨"default", "nginx", scheduleAnn, 2⟩

/-- The example deployment after the downtime write: replicas at the downtime
target, pre-downscale count recorded. -/
def nginxDown : Deployment := ⟨"default", "nginx", scheduleAnnOrig, 1⟩

/-- The example deployment after the subsequent uptime write. -/
def nginxRestored : Deployment := ⟨"default", "nginx", scheduleAnnOrig, 2⟩

/-- Claim C9.  A ScaleDown write followed by a ScaleUp write restores the
replica count to its value immediately before the ScaleDown, with no external
mutation in between: the ScaleDown records the pre-downscale count in the
`d8r/originalReplicas` annotation (second conjunct) and the ScaleUp parses it
back, so the round trip holds for every int32 starting count. -/
theorem claim_C9 (c1 c2 : Clock) (d d1 d2 : Deployment)
    (hr1 : -2147483648 ≤ d.replicas) (hr2 : d.replicas ≤ 2147483647)
    (ha1 : (getDeploymentActionNeeded c1 d.annotations d.replicas).1
      = Action.Downscale)
    (h1 : processDeployment c1 d = some d1)
    (ha2 : (getDeploymentActionNeeded c2 d1.annotations d1.replicas).1
      = Action.Upscale)
    (h2 : processDeployment c2 d1 = some d2) :
    d2.replicas = d.replicas ∧
    lookupAnn d1.annotations annotationOriginalReplicas
      = some (intSprintf d.replicas) := by
  obtain ⟨dt, hpd, hd1⟩ := processDeployment_downscale_inv c1 d d1 ha1 h1
  subst hd1
  have horig : lookupAnn
      (annSet d.annotations annotationOriginalReplicas (intSprintf d.replicas))
      annotationOriginalReplicas = some (intSprintf d.replicas) :=
    lookupAnn_annSet_self d.annotations annotationOriginalReplicas
      (intSprintf d.replicas)
  obtain ⟨o, hpo, hd2⟩ := processDeployment_upscale_inv c2 _ d2 ha2 h2
  have hag : annGet
      (annSet d.annotations annotationOriginalReplicas (intSprintf d.replicas))
      annotationOriginalReplicas = intSprintf d.replicas :=
    annGet_of_lookup horig
  rw [hag, parseInt32_intSprintf d.replicas hr1 hr2] at hpo
  have ho : o = d.replicas := by
    injection hpo with h
    exact h.symm
  subst hd2
  exact ⟨ho, horig⟩

/-- Claim C9 witness: the example deployment downscaled Wednesday 20:00 (2
replicas to 1, recording `"2"`) and upscaled Wednesday 09:00 comes back to 2
replicas. -/
theorem claim_C9_witness :
    nginxRestored.replicas = nginxDeployment.replicas ∧
    lookupAnn nginxDown.annotations annotationOriginalReplicas
      = some (intSprintf nginxDeployment.replicas) := by
  exact claim_C9 (pragueClock ⟨20, 0⟩ "Wednesday") (pragueClock ⟨9, 0⟩ "Wednesday")
    nginxDeployment nginxDown nginxRestored (by decide) (by decide) (by decide)
    (by decide) (by decide) (by decide)

/-- Claim C10.  The mutation step touches only the decided fields: when the
decided action is `NoAction` the deployment is not written at all; on a
Downscale write exactly the replica count and the `d8r/originalReplicas`
annotation change (namespace, name and every other annotation key read back
unchanged, and the new replica count is the parsed downtime target); on an
Upscale write only the replica count changes (the annotation map — including
the kept, not cleared, `d8r/originalReplicas` — is preserved verbatim). -/
theorem claim_C10 (c : Clock) (d : Deployment) :
    ((getDeploymentActionNeeded c d.annotations d.replicas).1 = Action.NoAction →
      processDeployment c d = none) ∧
    (∀ d2 : Deployment, processDeployment c d = some d2 →
      (getDeploymentActionNeeded c d.annotations d.replicas).1 = Action.Downscale →
      d2.ns = d.ns ∧ d2.name = d.name ∧
      lookupAnn d2.annotations annotationOriginalReplicas
        = some (intSprintf d.replicas) ∧
      (∀ k : String, k ≠ annotationOriginalReplicas →
        lookupAnn d2.annotations k = lookupAnn d.annotations k) ∧
      parseInt32 (annGet d.annotations annotationDownTimeReplicas)
        = some d2.replicas) ∧
    (∀ d2 : Deployment, processDeployment c d = some d2 →
      (getDeploymentActionNeeded c d.annotations d.replicas).1 = Action.Upscale →
      d2.ns = d.ns ∧ d2.name = d.name ∧ d2.annotations = d.annotations ∧
      parseInt32 (annGet d.annotations annotationOriginalReplicas)
        = some d2.replicas) := by
  refine ⟨processDeployment_of_noaction c d, ?_, ?_⟩
  · intro d2 hsome hact
    obtain ⟨dt, hp, hd2⟩ := processDeployment_downscale_inv c d d2 hact hsome
    subst hd2
    refine ⟨rfl, rfl, ?_, ?_, hp⟩
    · exact lookupAnn_annSet_self d.annotations annotationOriginalReplicas
        (intSprintf d.replicas)
    · intro k hk
      exact lookupAnn_annSet_ne d.annotations annotationOriginalReplicas
        (intSprintf d.replicas) k hk
  · intro d2 hsome hact
    obtain ⟨o, hp, hd2⟩ := processDeployment_upscale_inv c d d2 hact hsome
    subst hd2
    exact ⟨rfl, rfl, rfl, hp⟩

/-- Claim C10 witness: the already-downscaled example deployment is not
written at all during downtime (decided `NoAction`), and the downscale write
of the original deployment leaves untouched keys — here `d8r/startTime` —
unchanged. -/
theorem claim_C10_witness :
    processDeployment (pragueClock ⟨20, 0⟩ "Wednesday") nginxDown = none ∧
    lookupAnn nginxDown.annotations annotationStartTime
      = lookupAnn nginxDeployment.annotations annotationStartTime := by
  constructor
  · exact (claim_C10 (pragueClock ⟨20, 0⟩ "Wednesday") nginxDown).1 (by decide)
  · have h2 := (claim_C10 (pragueClock ⟨20, 0⟩ "Wednesday") nginxDeployment).2.1
      nginxDown (by decide) (by decide)
    exact h2.2.2.2.1 annotationStartTime (by decide)

end D8r
